import Mathlib

/-!
Verification of the PyAutoFit expectation-propagation core against its
natural-language specification.

Shallow embedding of:
* `autofit/messages/abstract.py` — exponential-family message algebra
  (`sum_natural_parameters`, `sub_natural_parameters`, `__mul__`,
  `__truediv__`, `__pow__`, `project`, `check_finite`, `check_support`,
  `is_valid`, the `assert_ids_match` guard);
* `autofit/graphical/expectation_propagation/__init__.py` — the
  `EPOptimiser.run` outer loop with its exception handling and the
  convergence-callback early exit;
* `autofit/graphical/expectation_propagation/factor_optimiser.py` —
  `AbstractFactorOptimiser.update_model_approx` and its delta resolution.

Numeric values are modelled as exact rationals extended with signed
infinities and NaN (`PFloat`), following IEEE-754 special-value semantics as
implemented by numpy (`inf - inf = nan`, `0 * inf = nan`, comparisons with
NaN are false). Rounding and overflow of finite values are not modelled; no
claim below depends on them. Where a value is produced by a transcendental
function (`np.log`), the function is taken as an uninterpreted parameter.

Parts of the repository that the claims depend on but whose code is not
present (the concrete message families, `EPMeanField.project_mean_field`,
`EPHistory`, the optimiser internals that convert a projection failure into
a `Status`) are modelled from the specification; each such definition's doc
comment starts with "Modelled from the spec:".
-/

/-- Model of an IEEE-754 double value: an exact rational, a signed infinity
or NaN. Rounding and overflow of finite values are not modelled. -/
inductive PFloat where
  | fin (q : ℚ)
  | posInf
  | negInf
  | nan
deriving DecidableEq, Repr

namespace PFloat

/-- `np.isfinite`. -/
def isFinite : PFloat → Bool
  | fin _ => true
  | _ => false

/-- IEEE negation. -/
def neg : PFloat → PFloat
  | fin q => fin (-q)
  | posInf => negInf
  | negInf => posInf
  | nan => nan

/-- IEEE addition: NaN propagates, opposite infinities give NaN. -/
def add : PFloat → PFloat → PFloat
  | nan, _ => nan
  | _, nan => nan
  | posInf, negInf => nan
  | negInf, posInf => nan
  | posInf, _ => posInf
  | _, posInf => posInf
  | negInf, _ => negInf
  | _, negInf => negInf
  | fin a, fin b => fin (a + b)

/-- IEEE subtraction, `a - b = a + (-b)`. -/
def sub (a b : PFloat) : PFloat := a.add b.neg

/-- Multiplication by an exact rational scalar (the damping deltas and
exponents of the source are Python floats; `0 * inf = nan` as in IEEE). -/
def qmul (c : ℚ) : PFloat → PFloat
  | nan => nan
  | fin q => fin (c * q)
  | posInf => if 0 < c then posInf else if c < 0 then negInf else nan
  | negInf => if 0 < c then negInf else if c < 0 then posInf else nan

/-- IEEE `<=` as computed by numpy: any comparison involving NaN is false. -/
def le : PFloat → PFloat → Bool
  | nan, _ => false
  | _, nan => false
  | negInf, _ => true
  | _, posInf => true
  | posInf, _ => false
  | _, negInf => false
  | fin a, fin b => decide (a ≤ b)

/-- IEEE `<` as computed by numpy: any comparison involving NaN is false. -/
def lt : PFloat → PFloat → Bool
  | nan, _ => false
  | _, nan => false
  | _, negInf => false
  | negInf, _ => true
  | posInf, _ => false
  | fin _, posInf => true
  | fin a, fin b => decide (a < b)

end PFloat

/-- Elementwise addition of two stacked parameter arrays
(`numpy` array addition on arrays of shape `(n_params, *shape)`; the outer
index is the natural-parameter index, the inner list the flattened
dimensions). -/
def add2 (a b : List (List PFloat)) : List (List PFloat) :=
  List.zipWith (List.zipWith PFloat.add) a b

/-- Elementwise subtraction of two stacked parameter arrays. -/
def sub2 (a b : List (List PFloat)) : List (List PFloat) :=
  List.zipWith (List.zipWith PFloat.sub) a b

/-- Scalar multiple of a stacked parameter array. -/
def smul2 (c : ℚ) (a : List (List PFloat)) : List (List PFloat) :=
  a.map (List.map (PFloat.qmul c))

/-- `np.isfinite(xss).all()` over a stacked array. -/
def allFinite2 (xss : List (List PFloat)) : Bool :=
  xss.all fun row => row.all PFloat.isFinite

/-- An exponential-family message class. The source dispatches these
operations through abstract-base-class polymorphism (`natural_parameters`,
`invert_natural_parameters`, `invert_sufficient_statistics`,
`_parameter_support` are supplied by each concrete family, none of which is
part of the embedded sources); here a family is a record of those
operations. `_projection_class` is not modelled: no claim involves a family
whose projection class differs from itself, so `cls_ = cls._projection_class
or cls` always resolves to the family at hand. -/
structure MessageFamily where
  /-- `natural_parameters`: family parameters to stacked natural parameters. -/
  natOf : List (List PFloat) → List (List PFloat)
  /-- `invert_natural_parameters`: stacked natural parameters back to family
  parameters. -/
  invNat : List (List PFloat) → List (List PFloat)
  /-- `invert_sufficient_statistics`: sufficient statistics to natural
  parameters. -/
  invSuff : List (List PFloat) → List (List PFloat)
  /-- `_parameter_support`: per-parameter `(lower, upper)` bounds, or `None`. -/
  parameterSupport : Option (List (PFloat × PFloat))

/-- `AbstractMessage` (abstract.py): a point of an exponential family.
`parameters` is the tuple of parameter arrays (outer index = parameter,
inner list = flattened dimensions of the broadcast shape), `log_norm` the
scalar normalisation offset and `id` the variable identity used by
`assert_ids_match`. -/
@[ext]
structure Message where
  family : MessageFamily
  parameters : List (List PFloat)
  log_norm : PFloat
  id : ℕ

namespace Message

/-- `AbstractMessage.natural_parameters` (family-specific, derived from the
parameters). -/
def naturalParameters (m : Message) : List (List PFloat) :=
  m.family.natOf m.parameters

end Message

/-- `AbstractMessage.from_natural_parameters` (abstract.py:126-134): inverts
the natural parameters into family parameters and constructs the message;
`log_norm` defaults to `0.` when not passed. -/
def fromNaturalParameters (fam : MessageFamily) (η : List (List PFloat))
    (log_norm : PFloat) (id : ℕ) : Message :=
  ⟨fam, fam.invNat η, log_norm, id⟩

/-- `AbstractMessage.from_sufficient_statistics` (abstract.py:143-149). -/
def fromSufficientStatistics (fam : MessageFamily)
    (suffStats : List (List PFloat)) (log_norm : PFloat) (id : ℕ) : Message :=
  fromNaturalParameters fam (fam.invSuff suffStats) log_norm id

/-- The module-level flag `enforce_id_match = True` (abstract.py:18). -/
def enforce_id_match : Bool := true

/-- The Python exception classes relevant to the EP core. -/
inductive ExcClass where
  | valueError
  | arithmeticError
  | runtimeError
  | assertionError
  | notImplementedError
  | otherError
deriving DecidableEq, Repr

/-- A raised Python exception: its class and its text. -/
structure PyExc where
  cls : ExcClass
  msg : String
deriving DecidableEq, Repr

/-- The text of the `AssertionError` raised by `assert_ids_match`
(abstract.py:29-31). -/
def idMismatchMsg (i j : ℕ) : String :=
  "Message with id " ++ toString i ++
    " should not be compared to message with id " ++ toString j

/-- The `AssertionError` raised by the `assert_ids_match` decorator
(abstract.py:21-35) when `enforce_id_match` holds and the two messages carry
different ids. -/
def idMismatchErr (a b : Message) : PyExc :=
  ⟨.assertionError, idMismatchMsg a.id b.id⟩

/-- `AbstractMessage.sum_natural_parameters` (abstract.py:151-166): adds the
natural parameters and rebuilds via `from_natural_parameters` tagged with
`self`'s id; `log_norm` is not passed, so it defaults to `0.`. The binary
case of the source's variadic `sum` is embedded (the claims only combine two
messages). -/
def sum_natural_parameters (a b : Message) : Message :=
  fromNaturalParameters a.family
    (add2 a.naturalParameters b.naturalParameters) (.fin 0) a.id

/-- `AbstractMessage.sub_natural_parameters` (abstract.py:168-182), with its
`assert_ids_match` decorator: subtracts natural parameters and `log_norm`
and rebuilds tagged with `self`'s id. -/
def sub_natural_parameters (a b : Message) : Except PyExc Message :=
  if enforce_id_match = true ∧ a.id ≠ b.id then .error (idMismatchErr a b)
  else .ok (fromNaturalParameters a.family
    (sub2 a.naturalParameters b.naturalParameters)
    (a.log_norm.sub b.log_norm) a.id)

/-- `AbstractMessage.__mul__` (abstract.py:187-197) on a message operand:
the `assert_ids_match` guard, then `_multiply = sum_natural_parameters`. -/
def mulMessage (a b : Message) : Except PyExc Message :=
  if enforce_id_match = true ∧ a.id ≠ b.id then .error (idMismatchErr a b)
  else .ok (sum_natural_parameters a b)

/-- `AbstractMessage.__truediv__` (abstract.py:203-213) on a message
operand: the `assert_ids_match` guard, then
`_divide = sub_natural_parameters` (itself guarded). -/
def divMessage (a b : Message) : Except PyExc Message :=
  if enforce_id_match = true ∧ a.id ≠ b.id then .error (idMismatchErr a b)
  else sub_natural_parameters a b

/-- `AbstractMessage.__mul__` (abstract.py:188-197) on a scalar operand: the
`isinstance` test inside `assert_ids_match` fails for a scalar, so no id
check happens; the result is `type(self)(*self.parameters,
log_norm=self.log_norm + np.log(other), id_=self.id)`. `np.log` is the
uninterpreted parameter `plog`. -/
def mulScalar (plog : PFloat → PFloat) (m : Message) (c : PFloat) : Message :=
  ⟨m.family, m.parameters, m.log_norm.add (plog c), m.id⟩

/-- `AbstractMessage.__truediv__` (abstract.py:204-213) on a scalar operand:
as `mulScalar` but with `log_norm - np.log(other)`. -/
def divScalar (plog : PFloat → PFloat) (m : Message) (c : PFloat) : Message :=
  ⟨m.family, m.parameters, m.log_norm.sub (plog c), m.id⟩

/-- `AbstractMessage.__pow__` (abstract.py:215-224): scales the natural
parameters and `log_norm` by the exponent and rebuilds with the same id. -/
def powMessage (m : Message) (e : ℚ) : Message :=
  fromNaturalParameters m.family (smul2 e m.naturalParameters)
    (PFloat.qmul e m.log_norm) m.id

/-- `AbstractMessage.check_finite` (abstract.py:460-461) followed by the
outer `np.all` of `is_valid`: `np.isfinite(self.natural_parameters).all(0)`
reduces finiteness over the parameter axis per dimension, and `np.all`
conjoins the dimensions — together, every natural-parameter entry finite. -/
def check_finite (m : Message) : Bool :=
  allFinite2 m.naturalParameters

/-- One parameter array checked against its `(lower, upper)` support bounds:
`(p >= support[0]) & (p <= support[1])` per dimension, conjoined. -/
def supportPair (p : List PFloat) (s : PFloat × PFloat) : Bool :=
  p.all fun x => s.1.le x && x.le s.2

/-- `AbstractMessage.check_support` (abstract.py:449-458) followed by the
outer `np.all` of `is_valid`: when `_parameter_support` is declared, each
parameter array is compared per dimension against its bounds and the results
reduced with `&`; otherwise both remaining branches produce all-`True`. -/
def check_support (m : Message) : Bool :=
  match m.family.parameterSupport with
  | some sup => (m.parameters.zip sup).all fun ps => supportPair ps.1 ps.2
  | none => true

/-- `AbstractMessage.is_valid` (abstract.py:466-468):
`np.all(self.check_finite()) and np.all(self.check_support())`. -/
def is_valid (m : Message) : Bool :=
  check_finite m && check_support m

/-- `AbstractMessage.project` (abstract.py:354-389) at the level of its
finiteness guard: the source computes `suff_stats` from the samples and
log-weights by a numerically stable max-shifted exponential weighting
(float arithmetic abstracted here as the resulting statistics and the
recovered `log_norm`), then executes `assert np.isfinite(suff_stats).all()`
— a bare `assert`, raising `AssertionError` with empty text — before
constructing the result via `from_sufficient_statistics`. -/
def project (fam : MessageFamily) (suffStats : List (List PFloat))
    (log_norm : PFloat) (id : ℕ) : Except PyExc Message :=
  if allFinite2 suffStats = true then
    .ok (fromSufficientStatistics fam suffStats log_norm id)
  else .error ⟨.assertionError, ""⟩

/-- `Status` (autofit/graphical/utils.py, described by the spec's data
model): an immutable record of success and messages. The spec's `flag` enum
member duplicates `success` for the behaviour the claims exercise and is
omitted. -/
structure Status where
  success : Bool
  messages : List String
deriving DecidableEq, Repr

/-- The exception classes named by the `except (ValueError, ArithmeticError,
RuntimeError)` clause of `EPOptimiser.run` (expectation_propagation/
__init__.py:139); an `AssertionError` (raised by a failed `assert`) and
other classes are not among them. -/
def caughtByRun (e : PyExc) : Bool :=
  match e.cls with
  | .valueError => true
  | .arithmeticError => true
  | .runtimeError => true
  | _ => false

/-- The failed `Status` built by `EPOptimiser.run`'s except clause
(expectation_propagation/__init__.py:141-144):
`Status(False, (f"Factor: {factor} experienced error {e}",))`. -/
def failStatus {F : Type} (fshow : F → String) (f : F) (e : PyExc) : Status :=
  ⟨false, ["Factor: " ++ fshow f ++ " experienced error " ++ e.msg]⟩

/-- Outcome of one pass of `run`'s inner per-factor loop: completed without
`break` (the `for`'s `else:` runs), broke out via the convergence callback,
or aborted by an exception no clause catches. -/
inductive InnerOut (H A : Type) where
  | completed (hist : H) (approx : A)
  | broke (hist : H) (approx : A)
  | raised (e : PyExc) (hist : H) (approx : A)
deriving DecidableEq, Repr

/-- The inner per-factor loop of `EPOptimiser.run`
(expectation_propagation/__init__.py:128-156). For each `(factor,
optimiser)` pair: `optimiser.optimise` either returns the new approximation
and status (both assigned), raises an exception listed in the except clause
(converted to a failed `Status`, the approximation name keeping its previous
value), or raises anything else (propagating out of the loop). Then
`self.ep_history(factor, model_approx, status)` records the step and, when
it returns `True`, `break`s. `H` is the state of the `ep_history` object
threaded through the callback `cb`; logging and plotting side effects carry
no state the claims observe and are omitted. -/
def innerLoop {F A H : Type} (fshow : F → String)
    (cb : H → F → A → Status → H × Bool) (hist : H) (approx : A) :
    List (F × (F → A → Except PyExc (A × Status))) → InnerOut H A
  | [] => .completed hist approx
  | (f, opt) :: rest =>
    match opt f approx with
    | .ok (a2, st) =>
      let r := cb hist f a2 st
      if r.2 then .broke r.1 a2 else innerLoop fshow cb r.1 a2 rest
    | .error e =>
      if caughtByRun e then
        let r := cb hist f approx (failStatus fshow f e)
        if r.2 then .broke r.1 approx
        else innerLoop fshow cb r.1 approx rest
      else .raised e hist approx

/-- Result of `EPOptimiser.run`: the final history state, the returned
`model_approx` and the number of inner sweeps executed — or the uncaught
exception that aborted the run. -/
inductive RunResult (H A : Type) where
  | done (hist : H) (approx : A) (sweeps : ℕ)
  | crashed (e : PyExc) (hist : H) (approx : A) (sweeps : ℕ)
deriving DecidableEq, Repr

/-- The outer `for _ in range(max_steps)` loop of `EPOptimiser.run`
(expectation_propagation/__init__.py:124-166): each iteration runs the inner
loop; the `for ... else: continue` / `break` pattern repeats on a completed
sweep and stops the whole run when the inner loop broke. -/
def outerLoop {F A H : Type} (fshow : F → String)
    (cb : H → F → A → Status → H × Bool)
    (opts : List (F × (F → A → Except PyExc (A × Status)))) :
    ℕ → H → A → ℕ → RunResult H A
  | 0, h, a, s => .done h a s
  | Nat.succ n, h, a, s =>
    match innerLoop fshow cb h a opts with
    | .completed h2 a2 => outerLoop fshow cb opts n h2 a2 (s + 1)
    | .broke h2 a2 => .done h2 a2 (s + 1)
    | .raised e h2 a2 => .crashed e h2 a2 s

/-- `EPOptimiser.run(model_approx, max_steps)`
(expectation_propagation/__init__.py:119-166). -/
def runEP {F A H : Type} (fshow : F → String)
    (opts : List (F × (F → A → Except PyExc (A × Status))))
    (cb : H → F → A → Status → H × Bool)
    (max_steps : ℕ) (hist : H) (approx : A) : RunResult H A :=
  outerLoop fshow cb opts max_steps hist approx 0

/-- Whether a run finished normally (no uncaught exception). -/
def RunResult.isDone {H A : Type} : RunResult H A → Bool
  | .done _ _ _ => true
  | .crashed _ _ _ _ => false

/-- The number of inner sweeps a run executed. -/
def RunResult.sweeps {H A : Type} : RunResult H A → ℕ
  | .done _ _ s => s
  | .crashed _ _ _ s => s

/-- The final history state of a run. -/
def RunResult.hist {H A : Type} : RunResult H A → H
  | .done h _ _ => h
  | .crashed _ h _ _ => h

/-- The final approximation of a run. -/
def RunResult.approx {H A : Type} : RunResult H A → A
  | .done _ a _ => a
  | .crashed _ _ a _ => a

/-- Modelled from the spec: `EPHistory`
(expectation_propagation/history.py, not among the embedded sources) keeps a
per-factor ordered record of optimisation outcomes; `add` appends the status
of every attempt — a failure is recorded but does not become the latest
successful snapshot. Here the record is the ordered list of `(factor,
status)` pairs. -/
structure EPHistoryModel (F : Type) where
  entries : List (F × Status)
deriving DecidableEq, Repr

/-- Modelled from the spec: recording one optimisation attempt. -/
def EPHistoryModel.add {F : Type} (h : EPHistoryModel F) (f : F)
    (s : Status) : EPHistoryModel F :=
  ⟨h.entries ++ [(f, s)]⟩

/-- Modelled from the spec: the ordered statuses recorded for one factor. -/
def EPHistoryModel.factorStatuses {F : Type} [DecidableEq F]
    (h : EPHistoryModel F) (f : F) : List Status :=
  h.entries.filterMap fun e => if e.1 = f then some e.2 else none

/-- Modelled from the spec: the default `EPHistory` convergence callback —
records every attempt and never signals termination ("default policy: never
terminate early"). -/
def defaultEPCallback {F A : Type} :
    EPHistoryModel F → F → A → Status → EPHistoryModel F × Bool :=
  fun h f _ s => (h.add f s, false)

/-- Modelled from the spec: `EPMeanField`
(expectation_propagation/ep_mean_field.py, not among the embedded sources)
as consumed by `update_model_approx`: the mean field (one message per
variable, variables named by naturals) and `variable_message_count`, the
number of factors touching each variable. -/
structure EPMeanFieldModel where
  mean_field : List (ℕ × Message)
  variable_message_count : List (ℕ × ℕ)

/-- The `delta` argument finally handed to `project_mean_field`: a scalar
shared by all variables, or (under `dynamic_delta`) the per-variable
mean-field of deltas built in `update_model_approx` (factor_optimiser.py:
43-46). -/
inductive DeltaVal where
  | scalar (d : ℚ)
  | perVariable (ds : List (ℕ × ℚ))
deriving DecidableEq, Repr

/-- The damping applied to one variable. The per-variable mean field of
deltas built by `update_model_approx` covers every variable of
`variable_message_count`; a variable outside it keeps the undamped step. -/
def DeltaVal.forVar : DeltaVal → ℕ → ℚ
  | .scalar d, _ => d
  | .perVariable ds, v => match ds.lookup v with
    | some d => d
    | none => 1

/-- Modelled from the spec: the damped merge of one variable's proposal into
its current message — "new = old^(1-δ) * proposal^δ, expressed via
natural-parameter interpolation": natural parameters and `log_norm` are
interpolated with the variable's delta and the message is rebuilt through
`from_natural_parameters` with the old message's family and id. -/
def dampedMessage (old prop : Message) (d : ℚ) : Message :=
  fromNaturalParameters old.family
    (add2 (smul2 (1 - d) old.naturalParameters)
      (smul2 d prop.naturalParameters))
    ((PFloat.qmul (1 - d) old.log_norm).add (PFloat.qmul d prop.log_norm))
    old.id

/-- Modelled from the spec: the merge of one variable of the mean field —
damped towards the proposal when the proposed distribution covers the
variable, untouched otherwise. -/
def mergeVariable (nd : List (ℕ × Message)) (delta : DeltaVal) (v : ℕ)
    (msg : Message) : Message :=
  match nd.lookup v with
  | none => msg
  | some prop => dampedMessage msg prop (delta.forVar v)

/-- Modelled from the spec: `EPMeanField.project_mean_field`
(ep_mean_field.py, not among the embedded sources) — merges the optimiser's
proposed distribution into the mean field with damped natural-parameter
interpolation per variable; variables without a proposal are untouched. -/
def project_mean_field (mf nd : List (ℕ × Message)) (delta : DeltaVal) :
    List (ℕ × Message) :=
  mf.map fun vm => (vm.1, mergeVariable nd delta vm.1 vm.2)

/-- `FactorApproximation` as consumed by `update_model_approx`
(factor_optimiser.py:40: only its `factor` field is read there). -/
structure FactorApproxModel where
  factor : ℕ

/-- The constructor state of `AbstractFactorOptimiser`
(factor_optimiser.py:19-24) read by `update_model_approx`: the base `delta`,
the per-factor `deltas` overrides and the `dynamic_delta` flag
(`initial_values` and `inplace` play no part in the claims). -/
structure FactorOptimiserCfg where
  delta : ℚ
  deltas : List (ℕ × ℚ)
  dynamic_delta : Bool

/-- Python's `min()` over a nonempty collection of counts. -/
def minOfCounts (c : ℕ) (cs : List ℕ) : ℕ :=
  cs.foldl Nat.min c

/-- The delta-resolution logic of `update_model_approx`
(factor_optimiser.py:38-46): `delta = delta or self.delta` (a `None` — and,
by Python falsiness, a zero — argument falls back to `self.delta`); a
per-factor override in `self.deltas` then replaces it; otherwise, with
`dynamic_delta` enabled, the per-variable mean field
`self.delta * (min_value / message_count)` is built over every counted
variable. -/
def resolveDelta (cfg : FactorOptimiserCfg) (factor : ℕ)
    (min_value : ℕ) (vmc : List (ℕ × ℕ)) (deltaArg : Option ℚ) : DeltaVal :=
  let d1 : ℚ := match deltaArg with
    | none => cfg.delta
    | some d => if d = 0 then cfg.delta else d
  match cfg.deltas.lookup factor with
  | some d => .scalar d
  | none =>
    if cfg.dynamic_delta then
      .perVariable (vmc.map fun vc =>
        (vc.1, cfg.delta * ((min_value : ℚ) / (vc.2 : ℚ))))
    else .scalar d1

/-- `AbstractFactorOptimiser.update_model_approx`
(factor_optimiser.py:26-53): computes `min_value` over
`variable_message_count` (Python's `min()` raises `ValueError` on an empty
collection), resolves the delta and delegates to
`model_approx.project_mean_field`, passing the status through. -/
def update_model_approx (cfg : FactorOptimiserCfg)
    (new_model_dist : List (ℕ × Message)) (factor_approx : FactorApproxModel)
    (model_approx : EPMeanFieldModel) (status : Status)
    (deltaArg : Option ℚ) : Except PyExc (EPMeanFieldModel × Status) :=
  match model_approx.variable_message_count with
  | [] => .error ⟨.valueError, "min() arg is an empty sequence"⟩
  | c :: cs =>
    let min_value := minOfCounts c.2 (cs.map Prod.snd)
    let delta := resolveDelta cfg factor_approx.factor min_value
      model_approx.variable_message_count deltaArg
    .ok (⟨project_mean_field model_approx.mean_field new_model_dist delta,
      model_approx.variable_message_count⟩, status)

/-- Modelled from the spec: the optimiser internals (newton.py and the
sampling-based optimisers, not among the embedded sources) surface a
numerical-instability failure — here the `AssertionError` raised by
`project` on non-finite sufficient statistics — as a failed `Status` for
that factor's optimisation attempt instead of letting it propagate
(spec §7, NumericalInstability). -/
def surfaceInstability {F A : Type} (attempt : A → Except PyExc (A × Status)) :
    F → A → Except PyExc (A × Status) :=
  fun _ a =>
    match attempt a with
    | .ok r => .ok r
    | .error e =>
      if e.cls = .assertionError then
        .ok (a, ⟨false, ["numerical instability: non-finite sufficient statistics"]⟩)
      else .error e

/-- A family given directly in natural coordinates: `natural_parameters` and
`invert_natural_parameters` are both the identity (their mutual
invertibility, the spec's round-trip invariant, holds definitionally), with
no declared parameter support. -/
def idFamily : MessageFamily :=
  ⟨fun x => x, fun x => x, fun x => x, none⟩

/-- Rendering of a factor name, `f"{factor}"`, for factors named by
naturals. -/
def natShow (n : ℕ) : String := toString n

/-- A factor optimiser whose `optimise` always succeeds, stepping the
approximation and returning a successful status. -/
def goodOpt : ℕ → ℕ → Except PyExc (ℕ × Status) :=
  fun _ a => .ok (a + 1, ⟨true, []⟩)

/-- A factor optimiser whose `optimise` always raises
`RuntimeError("boom")`. -/
def badOpt : ℕ → ℕ → Except PyExc (ℕ × Status) :=
  fun _ _ => .error ⟨.runtimeError, "boom"⟩

/-- A history callback that records nothing and never terminates. -/
def constCb : ℕ → ℕ → ℕ → Status → ℕ × Bool :=
  fun h _ _ _ => (h, false)

/-- The run of the spec's failure scenario: factor 0 always succeeds,
factor 1 always raises `RuntimeError`, the default history records every
attempt, `max_steps = 5`. -/
def c1Run : RunResult (EPHistoryModel ℕ) ℕ :=
  runEP natShow [(0, goodOpt), (1, badOpt)] defaultEPCallback 5 ⟨[]⟩ 0

/-- A convergence callback counting successful statuses and signalling
termination as the count reaches 3 (with a single factor per sweep: after
the 3rd successful sweep). -/
def c6Callback : ℕ → ℕ → ℕ → Status → ℕ × Bool :=
  fun h _ _ s =>
    let h2 := if s.success then h + 1 else h
    (h2, h2 == 3)

/-- The run of the spec's convergence scenario: one always-successful
factor, the counting callback, `max_steps = 100`. -/
def c6Run : RunResult ℕ ℕ :=
  runEP natShow [(0, goodOpt)] c6Callback 100 0 0

/-- An optimisation attempt that projects non-finite sufficient statistics:
`project` raises, and the raised exception propagates out of the attempt. -/
def unstableAttempt : ℕ → Except PyExc (ℕ × Status) :=
  fun a =>
    match project idFamily [[.posInf]] (.fin 0) 3 with
    | .ok _ => .ok (a + 1, ⟨true, []⟩)
    | .error e => .error e

/-- The run of the numerical-instability scenario: one factor whose attempt
hits the projection assertion, surfaced as a failed status by the optimiser
internals, `max_steps = 4`. -/
def c5Run : RunResult (EPHistoryModel ℕ) ℕ :=
  runEP natShow [(2, surfaceInstability unstableAttempt)] defaultEPCallback 4
    ⟨[]⟩ 0

/-- A concrete message over `idFamily` with id 1. -/
def mA : Message := ⟨idFamily, [[.fin 1]], .fin 0, 1⟩

/-- A concrete message over `idFamily` with id 2. -/
def mB : Message := ⟨idFamily, [[.fin 2]], .fin 0, 2⟩

/-- A concrete message over `idFamily` sharing id 1 with `mA`. -/
def mA2 : Message := ⟨idFamily, [[.fin 3]], .fin 0, 1⟩

/-- A message whose natural parameters contain an infinity (for a
`NormalMessage`, `sigma = 0` produces the natural parameter
`-1/(2*sigma**2) = -inf`; here the family is in natural coordinates). -/
def mInf : Message := ⟨idFamily, [[.posInf]], .fin 0, 7⟩

/-- The current mean-field message of a variable, for the merge scenario. -/
def mOld : Message := ⟨idFamily, [[.fin 3], [.fin 4]], .fin 1, 0⟩

/-- The optimiser's proposed message for the same variable. -/
def mProp : Message := ⟨idFamily, [[.fin 5], [.fin 6]], .fin 2, 0⟩

/-- A family mirroring `NormalMessage` at the point `(mu, sigma) = (0,
inf)`: the natural parameters `(mu/sigma**2, -1/(2*sigma**2))` evaluate to
`(0, -0)` — finite — while the `sigma` parameter is infinite yet inside the
declared support `(0, inf)` (numpy's `inf <= inf` is true). -/
def c8Family : MessageFamily :=
  ⟨fun _ => [[.fin 0], [.fin 0]], fun x => x, fun x => x,
    some [(.negInf, .posInf), (.fin 0, .posInf)]⟩

/-- The message with parameters `(0, inf)` over `c8Family`. -/
def c8Message : Message := ⟨c8Family, [[.fin 0], [.posInf]], .fin 0, 0⟩

/-- Optimiser configuration for the dynamic-delta scenario: base delta 1/2,
no per-factor overrides, `dynamic_delta` enabled. -/
def c3Cfg : FactorOptimiserCfg := ⟨1 / 2, [], true⟩

/-- Mean-field state for the dynamic-delta scenario: variable 0 touched by
2 factors, variable 1 by 4. -/
def c3Ma : EPMeanFieldModel := ⟨[], [(0, 2), (1, 4)]⟩

/-- Equal stacking shape of two stacked parameter arrays. -/
def dimsMatch (a b : List (List PFloat)) : Prop :=
  a.length = b.length ∧ ∀ pr ∈ a.zip b, pr.1.length = pr.2.length

instance (a b : List (List PFloat)) : Decidable (dimsMatch a b) := by
  unfold dimsMatch
  infer_instance

theorem PFloat.qmul_one (x : PFloat) : PFloat.qmul 1 x = x := by
  cases x <;> simp [PFloat.qmul, zero_lt_one]

theorem PFloat.qmul_zero_of_finite (x : PFloat) (h : x.isFinite = true) :
    PFloat.qmul 0 x = .fin 0 := by
  cases x <;> simp_all [PFloat.qmul, PFloat.isFinite]

theorem PFloat.add_fin_zero (x : PFloat) : PFloat.add x (.fin 0) = x := by
  cases x <;> simp [PFloat.add]

theorem PFloat.fin_zero_add (x : PFloat) : PFloat.add (.fin 0) x = x := by
  cases x <;> simp [PFloat.add]

theorem PFloat.sub_self_of_finite (x : PFloat) (h : x.isFinite = true) :
    x.sub x = .fin 0 := by
  cases x <;> simp_all [PFloat.sub, PFloat.add, PFloat.neg, PFloat.isFinite]

theorem zipWith_qmul_one_zero (a : List PFloat) :
    ∀ b : List PFloat, a.length = b.length → b.all PFloat.isFinite = true →
      List.zipWith PFloat.add (a.map (PFloat.qmul 1)) (b.map (PFloat.qmul 0)) = a := by
  induction a with
  | nil => intro b _ _; simp
  | cons x xs ih =>
    intro b hl hb
    cases b with
    | nil => simp at hl
    | cons y ys =>
      simp only [List.all_cons, Bool.and_eq_true] at hb
      simp only [List.map_cons, List.zipWith_cons_cons]
      rw [PFloat.qmul_one, PFloat.qmul_zero_of_finite y hb.1,
        PFloat.add_fin_zero, ih ys (by simpa using hl) hb.2]

theorem zipWith_qmul_zero_one (a : List PFloat) :
    ∀ b : List PFloat, a.length = b.length → a.all PFloat.isFinite = true →
      List.zipWith PFloat.add (a.map (PFloat.qmul 0)) (b.map (PFloat.qmul 1)) = b := by
  induction a with
  | nil =>
    intro b hl _
    cases b with
    | nil => simp
    | cons y ys => simp at hl
  | cons x xs ih =>
    intro b hl ha
    cases b with
    | nil => simp at hl
    | cons y ys =>
      simp only [List.all_cons, Bool.and_eq_true] at ha
      simp only [List.map_cons, List.zipWith_cons_cons]
      rw [PFloat.qmul_one, PFloat.qmul_zero_of_finite x ha.1,
        PFloat.fin_zero_add, ih ys (by simpa using hl) ha.2]

theorem add2_one_zero (A : List (List PFloat)) :
    ∀ B : List (List PFloat), A.length = B.length →
      (∀ pr ∈ A.zip B, pr.1.length = pr.2.length) → allFinite2 B = true →
      add2 (smul2 1 A) (smul2 0 B) = A := by
  induction A with
  | nil => intro B _ _ _; simp [add2, smul2]
  | cons r A' ih =>
    intro B hl hrows hB
    cases B with
    | nil => simp at hl
    | cons s B' =>
      simp only [allFinite2, List.all_cons, Bool.and_eq_true] at hB
      simp only [add2, smul2, List.map_cons, List.zipWith_cons_cons]
      rw [zipWith_qmul_one_zero r s (hrows (r, s) (by simp)) hB.1]
      have := ih B' (by simpa using hl)
        (fun pr hpr => hrows pr (by simp [hpr])) hB.2
      simp only [add2, smul2] at this
      rw [this]

theorem add2_zero_one (A : List (List PFloat)) :
    ∀ B : List (List PFloat), A.length = B.length →
      (∀ pr ∈ A.zip B, pr.1.length = pr.2.length) → allFinite2 A = true →
      add2 (smul2 0 A) (smul2 1 B) = B := by
  induction A with
  | nil =>
    intro B hl _ _
    cases B with
    | nil => simp [add2, smul2]
    | cons s B' => simp at hl
  | cons r A' ih =>
    intro B hl hrows hA
    cases B with
    | nil => simp at hl
    | cons s B' =>
      simp only [allFinite2, List.all_cons, Bool.and_eq_true] at hA
      simp only [add2, smul2, List.map_cons, List.zipWith_cons_cons]
      rw [zipWith_qmul_zero_one r s (hrows (r, s) (by simp)) hA.1]
      have := ih B' (by simpa using hl)
        (fun pr hpr => hrows pr (by simp [hpr])) hA.2
      simp only [add2, smul2] at this
      rw [this]

theorem zipWith_sub_self (r : List PFloat) (h : r.all PFloat.isFinite = true) :
    ∀ x ∈ List.zipWith PFloat.sub r r, x = .fin 0 := by
  induction r with
  | nil => simp
  | cons y ys ih =>
    simp only [List.all_cons, Bool.and_eq_true] at h
    intro x hx
    simp only [List.zipWith_cons_cons] at hx
    rcases List.mem_cons.mp hx with h1 | h2
    · rw [h1]; exact PFloat.sub_self_of_finite y h.1
    · exact ih h.2 x h2

theorem sub2_self_zero (X : List (List PFloat)) (h : allFinite2 X = true) :
    ∀ row ∈ sub2 X X, ∀ x ∈ row, x = .fin 0 := by
  induction X with
  | nil => simp [sub2]
  | cons r X' ih =>
    simp only [allFinite2, List.all_cons, Bool.and_eq_true] at h
    intro row hrow
    simp only [sub2, List.zipWith_cons_cons] at hrow
    rcases List.mem_cons.mp hrow with h1 | h2
    · rw [h1]; exact zipWith_sub_self r h.1
    · exact ih h.2 row h2

theorem lookup_map_keyed {β γ : Type} (g : ℕ → β → γ) (l : List (ℕ × β))
    (v : ℕ) :
    (l.map fun p => (p.1, g p.1 p.2)).lookup v = (l.lookup v).map (g v) := by
  induction l with
  | nil => rfl
  | cons p l' ih =>
    obtain ⟨k, b⟩ := p
    simp only [List.map_cons, List.lookup]
    cases h : v == k with
    | false => simp [h, ih]
    | true =>
      have hv : v = k := by simpa using h
      subst hv
      simp

theorem foldl_min_le_init (cs : List ℕ) : ∀ c : ℕ, cs.foldl Nat.min c ≤ c := by
  induction cs with
  | nil => intro c; exact le_refl c
  | cons a t ih =>
    intro c
    calc (a :: t).foldl Nat.min c = t.foldl Nat.min (Nat.min c a) := by
          rw [List.foldl_cons]
      _ ≤ Nat.min c a := ih (Nat.min c a)
      _ ≤ c := Nat.min_le_left c a

theorem foldl_min_le_mem (cs : List ℕ) :
    ∀ (c k : ℕ), k ∈ cs → cs.foldl Nat.min c ≤ k := by
  induction cs with
  | nil => intro c k hk; simp at hk
  | cons a t ih =>
    intro c k hk
    rw [List.foldl_cons]
    rcases List.mem_cons.mp hk with rfl | h
    · exact le_trans (foldl_min_le_init t (Nat.min c k)) (Nat.min_le_right c k)
    · exact ih (Nat.min c a) k h

theorem foldl_min_mem (cs : List ℕ) :
    ∀ c : ℕ, cs.foldl Nat.min c = c ∨ cs.foldl Nat.min c ∈ cs := by
  induction cs with
  | nil => intro c; exact Or.inl rfl
  | cons a t ih =>
    intro c
    rw [List.foldl_cons]
    rcases ih (Nat.min c a) with h | h
    · rw [h]
      rcases Nat.le_total c a with hca | hac
      · exact Or.inl (Nat.min_eq_left hca)
      · right
        have hmin : Nat.min c a = a := Nat.min_eq_right hac
        rw [hmin]
        exact List.mem_cons_self a t
    · exact Or.inr (List.mem_cons_of_mem a h)

theorem dampedMessage_zero (old prop : Message)
    (hrt0 : old.family.invNat (old.family.natOf old.parameters) = old.parameters)
    (hfp : allFinite2 prop.naturalParameters = true)
    (hlp : prop.log_norm.isFinite = true)
    (hlen : old.naturalParameters.length = prop.naturalParameters.length)
    (hrows : ∀ pr ∈ old.naturalParameters.zip prop.naturalParameters,
      pr.1.length = pr.2.length) :
    dampedMessage old prop 0 = old := by
  unfold dampedMessage fromNaturalParameters
  have h10 : (1 - 0 : ℚ) = 1 := by norm_num
  rw [h10, add2_one_zero _ _ hlen hrows hfp, PFloat.qmul_one,
    PFloat.qmul_zero_of_finite _ hlp, PFloat.add_fin_zero]
  show Message.mk old.family
    (old.family.invNat (Message.naturalParameters old)) old.log_norm old.id = old
  rw [Message.naturalParameters, hrt0]

theorem dampedMessage_one (old prop : Message)
    (hrt : ∀ η, old.family.natOf (old.family.invNat η) = η)
    (hfo : allFinite2 old.naturalParameters = true)
    (hlen : old.naturalParameters.length = prop.naturalParameters.length)
    (hrows : ∀ pr ∈ old.naturalParameters.zip prop.naturalParameters,
      pr.1.length = pr.2.length) :
    (dampedMessage old prop 1).naturalParameters = prop.naturalParameters := by
  unfold dampedMessage fromNaturalParameters
  have h11 : (1 - 1 : ℚ) = 0 := by norm_num
  rw [h11, add2_zero_one _ _ hlen hrows hfo]
  show old.family.natOf (old.family.invNat prop.naturalParameters) =
    prop.naturalParameters
  exact hrt _

/-- C2. Combining two Messages via `*` fails with the identity-mismatch
`AssertionError` of `assert_ids_match` when their ids differ, and with equal
ids succeeds, returning a new Message carrying that shared id. -/
theorem message_mul_id_guard (a b : Message) :
    (a.id ≠ b.id → mulMessage a b = .error (idMismatchErr a b)) ∧
    (a.id = b.id →
      ∃ m, mulMessage a b = .ok m ∧ m.id = a.id ∧ m.id = b.id) := by
  constructor
  · intro hne
    simp [mulMessage, enforce_id_match, hne]
  · intro heq
    refine ⟨sum_natural_parameters a b, ?_, rfl, ?_⟩
    · simp [mulMessage, enforce_id_match, heq]
    · show a.id = b.id
      exact heq

/-- C2 witness: `mA` and `mB` carry ids 1 and 2, so `mA * mB` raises the
identity-mismatch error; `mA` and `mA2` share id 1, so `mA * mA2` succeeds
with id 1. -/
theorem message_mul_id_guard_witness :
    mulMessage mA mB = .error (idMismatchErr mA mB) ∧
    ∃ m, mulMessage mA mA2 = .ok m ∧ m.id = mA.id ∧ m.id = mA2.id :=
  ⟨(message_mul_id_guard mA mB).1 (by decide),
    (message_mul_id_guard mA mA2).2 rfl⟩

/-- C7 counterexample. The claim quantifies over every Message, but a
message whose natural parameters contain an infinity (e.g. a Normal with
`sigma = 0`) divided by itself produces `inf - inf = nan`, not zero: for
`mInf`, `m / m` succeeds yet its natural parameters are `[[nan]]`. -/
theorem div_self_counterexample :
    (divMessage mInf mInf).map Message.naturalParameters =
      .ok [[PFloat.nan]] ∧ PFloat.nan ≠ PFloat.fin 0 := by
  constructor
  · rfl
  · decide

/-- C7 as amended: for every Message whose natural parameters and log_norm
are finite (families satisfying the spec's round-trip invariant), `m / m`
(same id, so the guard passes) yields a Message whose natural parameters are
all zero and whose log_norm is 0. -/
theorem div_self_zero (m : Message)
    (hrt : ∀ η, m.family.natOf (m.family.invNat η) = η)
    (hfin : allFinite2 m.naturalParameters = true)
    (hln : m.log_norm.isFinite = true) :
    ∃ d, divMessage m m = .ok d ∧
      (∀ row ∈ d.naturalParameters, ∀ x ∈ row, x = .fin 0) ∧
      d.log_norm = .fin 0 := by
  refine ⟨fromNaturalParameters m.family
    (sub2 m.naturalParameters m.naturalParameters)
    (m.log_norm.sub m.log_norm) m.id, ?_, ?_, ?_⟩
  · simp [divMessage, sub_natural_parameters]
  · have hd : (fromNaturalParameters m.family
        (sub2 m.naturalParameters m.naturalParameters)
        (m.log_norm.sub m.log_norm) m.id).naturalParameters =
        sub2 m.naturalParameters m.naturalParameters := by
      simp [fromNaturalParameters, Message.naturalParameters, hrt]
    rw [hd]
    exact sub2_self_zero _ hfin
  · show m.log_norm.sub m.log_norm = .fin 0
    exact PFloat.sub_self_of_finite _ hln

/-- C7 witness: the amended theorem applied to the finite message `mA`. -/
theorem div_self_zero_witness :
    ∃ d, divMessage mA mA = .ok d ∧
      (∀ row ∈ d.naturalParameters, ∀ x ∈ row, x = .fin 0) ∧
      d.log_norm = .fin 0 :=
  div_self_zero mA (fun _ => rfl) (by decide) (by decide)

/-- C8 counterexample. `is_valid` checks finiteness of the natural
parameters, not of the family parameters: `c8Message` (a Normal-like family
at `(mu, sigma) = (0, inf)`, whose natural parameters are finite and whose
parameters sit inside the declared support because `inf <= inf`) is valid
even though one of its parameters is infinite. -/
theorem is_valid_counterexample :
    is_valid c8Message = true ∧
      ¬ ∀ row ∈ c8Message.parameters, ∀ x ∈ row, x.isFinite = true := by
  constructor
  · decide
  · decide

/-- C8 as amended: `is_valid` holds exactly when every natural parameter is
finite and — when the family declares a parameter support — every parameter
lies within its declared interval, both checked per dimension and reduced
with logical AND. -/
theorem is_valid_characterisation (m : Message) :
    is_valid m = true ↔
      ((∀ row ∈ m.naturalParameters, ∀ x ∈ row, x.isFinite = true) ∧
        ∀ sup, m.family.parameterSupport = some sup →
          ∀ ps ∈ m.parameters.zip sup, ∀ x ∈ ps.1,
            (ps.2.1.le x && x.le ps.2.2) = true) := by
  unfold is_valid check_finite check_support allFinite2 supportPair
  cases hsup : m.family.parameterSupport with
  | none => simp [List.all_eq_true]
  | some sup => simp [List.all_eq_true]

/-- C10. Multiplying or dividing a Message by a positive scalar returns a
new Message with identical parameters, family and id; only `log_norm`
changes, by plus or minus the scalar's log (`np.log` uninterpreted). -/
theorem scalar_mul_div_frame (plog : PFloat → PFloat) (m : Message)
    (c : PFloat) (hc : PFloat.lt (.fin 0) c = true) :
    ((mulScalar plog m c).parameters = m.parameters ∧
      (mulScalar plog m c).id = m.id ∧
      (mulScalar plog m c).family = m.family ∧
      (mulScalar plog m c).log_norm = m.log_norm.add (plog c)) ∧
    ((divScalar plog m c).parameters = m.parameters ∧
      (divScalar plog m c).id = m.id ∧
      (divScalar plog m c).family = m.family ∧
      (divScalar plog m c).log_norm = m.log_norm.sub (plog c)) :=
  ⟨⟨rfl, rfl, rfl, rfl⟩, ⟨rfl, rfl, rfl, rfl⟩⟩

/-- C10 witness: the frame property at the concrete message `mA` and scalar
2, with the log function instantiated arbitrarily. -/
theorem scalar_mul_div_frame_witness :
    ((mulScalar (fun _ => .fin 1) mA (.fin 2)).parameters = mA.parameters ∧
      (mulScalar (fun _ => .fin 1) mA (.fin 2)).id = mA.id ∧
      (mulScalar (fun _ => .fin 1) mA (.fin 2)).family = mA.family ∧
      (mulScalar (fun _ => .fin 1) mA (.fin 2)).log_norm =
        mA.log_norm.add ((fun _ => PFloat.fin 1) (PFloat.fin 2))) ∧
    ((divScalar (fun _ => .fin 1) mA (.fin 2)).parameters = mA.parameters ∧
      (divScalar (fun _ => .fin 1) mA (.fin 2)).id = mA.id ∧
      (divScalar (fun _ => .fin 1) mA (.fin 2)).family = mA.family ∧
      (divScalar (fun _ => .fin 1) mA (.fin 2)).log_norm =
        mA.log_norm.sub ((fun _ => PFloat.fin 1) (PFloat.fin 2))) :=
  scalar_mul_div_frame (fun _ => .fin 1) mA (.fin 2) (by decide)

/-- C1. When a factor's `optimise` raises a caught exception class, `run`
converts it into a failed Status carrying the error text, hands it to the
history, and proceeds to the next factor of the sweep; in the concrete
scenario (factor 0 always succeeding, factor 1 always raising
`RuntimeError("boom")`, default history, `max_steps = 5`) the run completes
all 5 sweeps, factor 1's history holds 5 failed Status entries and factor
0's holds 5 successful ones. -/
theorem ep_run_caught_failure_continues :
    (∀ (F A H : Type) (fshow : F → String)
      (cb : H → F → A → Status → H × Bool) (h : H) (a : A) (f : F)
      (opt : F → A → Except PyExc (A × Status))
      (rest : List (F × (F → A → Except PyExc (A × Status)))) (e : PyExc),
      opt f a = .error e → caughtByRun e = true →
      (cb h f a ⟨false,
        ["Factor: " ++ fshow f ++ " experienced error " ++ e.msg]⟩).2 = false →
      innerLoop fshow cb h a ((f, opt) :: rest) =
        innerLoop fshow cb
          (cb h f a ⟨false,
            ["Factor: " ++ fshow f ++ " experienced error " ++ e.msg]⟩).1
          a rest) ∧
    (c1Run.isDone = true ∧ c1Run.sweeps = 5 ∧
      c1Run.hist.factorStatuses 1 =
        List.replicate 5 ⟨false, ["Factor: 1 experienced error boom"]⟩ ∧
      c1Run.hist.factorStatuses 0 = List.replicate 5 ⟨true, []⟩) := by
  constructor
  · intro F A H fshow cb h a f opt rest e hopt hcaught hcb
    simp [innerLoop, hopt, hcaught, failStatus, hcb]
  · refine ⟨by decide, by decide, by decide, by decide⟩

/-- C1 witness: the general continuation property applied to a factor (named
9) whose optimise raises `RuntimeError("boom")`, under a callback that never
terminates. -/
theorem ep_run_caught_failure_continues_witness :
    innerLoop natShow constCb 0 0 [(9, badOpt)] =
      innerLoop natShow constCb
        (constCb 0 9 0
          ⟨false, ["Factor: " ++ natShow 9 ++ " experienced error " ++ "boom"]⟩).1
        0 [] :=
  ep_run_caught_failure_continues.1 ℕ ℕ ℕ natShow constCb 0 0 9 badOpt
    [] ⟨.runtimeError, "boom"⟩ rfl rfl rfl

/-- C5. `project` fails hard with an `AssertionError` whenever the computed
sufficient statistics are not all finite; during a factor's optimisation
attempt under `run` this failure is surfaced as a failed Status for that
factor (by the optimiser internals, modelled from the spec) and the outer
loop is not crashed: in the concrete scenario the run completes all 4
sweeps, recording 4 failed statuses for the unstable factor. -/
theorem projection_instability_failed_status :
    (∀ (fam : MessageFamily) (stats : List (List PFloat)) (ln : PFloat)
      (i : ℕ), allFinite2 stats = false →
      project fam stats ln i = .error ⟨.assertionError, ""⟩) ∧
    (c5Run.isDone = true ∧ c5Run.sweeps = 4 ∧
      c5Run.hist.factorStatuses 2 =
        List.replicate 4
          ⟨false, ["numerical instability: non-finite sufficient statistics"]⟩) := by
  constructor
  · intro fam stats ln i hstats
    simp [project, hstats]
  · refine ⟨by decide, by decide, by decide⟩

/-- C5 witness: the projection failure applied to the concrete non-finite
statistics `[[inf]]`. -/
theorem projection_instability_failed_status_witness :
    project idFamily [[.posInf]] (.fin 0) 3 = .error ⟨.assertionError, ""⟩ :=
  projection_instability_failed_status.1 idFamily [[.posInf]] (.fin 0) 3
    (by decide)

/-- C6. A convergence callback returning True breaks out of the entire outer
loop: whenever an inner sweep ends in `broke`, the outer loop stops with
that sweep regardless of remaining fuel; in the concrete scenario (a
callback returning True after the 3rd successful sweep) `run` with
`max_steps = 100` performs exactly 3 sweeps. -/
theorem callback_terminates_outer_loop :
    (∀ (F A H : Type) (fshow : F → String)
      (cb : H → F → A → Status → H × Bool)
      (opts : List (F × (F → A → Except PyExc (A × Status))))
      (n : ℕ) (h : H) (a : A) (s : ℕ) (h2 : H) (a2 : A),
      innerLoop fshow cb h a opts = .broke h2 a2 →
      outerLoop fshow cb opts (n + 1) h a s = .done h2 a2 (s + 1)) ∧
    (c6Run.sweeps = 3 ∧ c6Run.isDone = true) := by
  constructor
  · intro F A H fshow cb opts n h a s h2 a2 hbr
    simp [outerLoop, hbr]
  · exact ⟨by decide, by decide⟩

/-- C6 witness: the break property applied at the concrete state where the
counting callback fires (third successful status), with 1 unit of remaining
fuel standing in for the unused budget. -/
theorem callback_terminates_outer_loop_witness :
    outerLoop natShow c6Callback [(0, goodOpt)] 1 2 2 0 = .done 3 3 1 :=
  callback_terminates_outer_loop.1 ℕ ℕ ℕ natShow c6Callback [(0, goodOpt)]
    0 2 2 0 3 3 (by decide)

/-- C9. When a factor's `optimise` raises a caught exception class, the
assignment `model_approx, status = ...` never happens, so the approximation
handed to the history callback and to every remaining factor of the sweep is
exactly the approximation from before the failed attempt. -/
theorem failed_factor_leaves_approx_unchanged :
    ∀ (F A H : Type) (fshow : F → String)
      (cb : H → F → A → Status → H × Bool) (h : H) (a : A) (f : F)
      (opt : F → A → Except PyExc (A × Status))
      (rest : List (F × (F → A → Except PyExc (A × Status)))) (e : PyExc),
      opt f a = .error e → caughtByRun e = true →
      innerLoop fshow cb h a ((f, opt) :: rest) =
        (if (cb h f a (failStatus fshow f e)).2
         then .broke (cb h f a (failStatus fshow f e)).1 a
         else innerLoop fshow cb (cb h f a (failStatus fshow f e)).1 a rest) := by
  intro F A H fshow cb h a f opt rest e hopt hcaught
  simp [innerLoop, hopt, hcaught]

/-- C9 witness: a failing factor (named 4) followed by a successful factor;
the rest of the sweep runs against the unchanged approximation 0. -/
theorem failed_factor_leaves_approx_unchanged_witness :
    innerLoop natShow constCb 0 0 [(4, badOpt), (8, goodOpt)] =
      (if (constCb 0 4 0 (failStatus natShow 4 ⟨.runtimeError, "boom"⟩)).2
       then InnerOut.broke
         (constCb 0 4 0 (failStatus natShow 4 ⟨.runtimeError, "boom"⟩)).1 0
       else innerLoop natShow constCb
         (constCb 0 4 0 (failStatus natShow 4 ⟨.runtimeError, "boom"⟩)).1 0
         [(8, goodOpt)]) :=
  failed_factor_leaves_approx_unchanged ℕ ℕ ℕ natShow constCb 0 0 4
    badOpt [(8, goodOpt)] ⟨.runtimeError, "boom"⟩ rfl rfl

/-- C3. In `update_model_approx`, a per-factor override in `self.deltas`
takes precedence; otherwise, with `dynamic_delta` enabled, the per-variable
delta handed to `project_mean_field` is `self.delta * (min_message_count /
this_variable_message_count)`, where the minimum ranges over all counted
variables. -/
theorem dynamic_delta_formula (cfg : FactorOptimiserCfg)
    (nd : List (ℕ × Message)) (fa : FactorApproxModel)
    (ma : EPMeanFieldModel) (st : Status) (dArg : Option ℚ)
    (c : ℕ × ℕ) (cs : List (ℕ × ℕ))
    (hv : ma.variable_message_count = c :: cs) :
    (cfg.deltas.lookup fa.factor = none → cfg.dynamic_delta = true →
      update_model_approx cfg nd fa ma st dArg =
        .ok (⟨project_mean_field ma.mean_field nd
          (.perVariable (ma.variable_message_count.map fun vc =>
            (vc.1, cfg.delta *
              ((minOfCounts c.2 (cs.map Prod.snd) : ℚ) / (vc.2 : ℚ))))),
          ma.variable_message_count⟩, st) ∧
      minOfCounts c.2 (cs.map Prod.snd) ∈
        ma.variable_message_count.map Prod.snd ∧
      (∀ k ∈ ma.variable_message_count.map Prod.snd,
        minOfCounts c.2 (cs.map Prod.snd) ≤ k)) ∧
    (∀ d, cfg.deltas.lookup fa.factor = some d →
      update_model_approx cfg nd fa ma st dArg =
        .ok (⟨project_mean_field ma.mean_field nd (.scalar d),
          ma.variable_message_count⟩, st)) := by
  constructor
  · intro hnone hdyn
    refine ⟨?_, ?_, ?_⟩
    · unfold update_model_approx resolveDelta
      rw [hv]
      simp [hnone, hdyn]
    · rw [hv]
      simp only [List.map_cons]
      rcases foldl_min_mem (cs.map Prod.snd) c.2 with h | h
      · rw [minOfCounts, h]
        exact List.mem_cons_self _ _
      · refine List.mem_cons_of_mem _ ?_
        rw [minOfCounts]
        exact h
    · rw [hv]
      intro k hk
      simp only [List.map_cons] at hk
      rcases List.mem_cons.mp hk with rfl | h
      · exact foldl_min_le_init _ _
      · exact foldl_min_le_mem _ _ _ h
  · intro d hd
    unfold update_model_approx resolveDelta
    rw [hv]
    simp [hd]

/-- C3 witness: the dynamic-delta formula at the concrete configuration
(base delta 1/2, no overrides) over counts {variable 0: 2 factors, variable
1: 4 factors}; the minimum count is 2. -/
theorem dynamic_delta_formula_witness :
    (update_model_approx c3Cfg [] ⟨0⟩ c3Ma ⟨true, []⟩ none =
      .ok (⟨project_mean_field c3Ma.mean_field []
        (.perVariable (c3Ma.variable_message_count.map fun vc =>
          (vc.1, c3Cfg.delta * ((minOfCounts 2 [4] : ℚ) / (vc.2 : ℚ))))),
        c3Ma.variable_message_count⟩, ⟨true, []⟩)) ∧
    minOfCounts 2 [4] ∈ c3Ma.variable_message_count.map Prod.snd ∧
    (∀ k ∈ c3Ma.variable_message_count.map Prod.snd,
      minOfCounts 2 [4] ≤ k) :=
  (dynamic_delta_formula c3Cfg [] ⟨0⟩ c3Ma ⟨true, []⟩ none (0, 2) [(1, 4)]
    rfl).1 rfl rfl

/-- C4. For a variable covered by both the mean field and the proposal,
merging with delta 0 leaves the mean field's Message for that variable
unchanged, and merging with delta 1 produces a Message whose natural
parameters are exactly the proposal's (hypotheses: the spec's round-trip
invariant for the family, finite natural parameters and proposal log_norm,
matching stacking shapes). -/
theorem delta_boundary_merge (mf nd : List (ℕ × Message)) (v : ℕ)
    (old prop : Message)
    (hmf : mf.lookup v = some old) (hnd : nd.lookup v = some prop)
    (hrt0 : old.family.invNat (old.family.natOf old.parameters) =
      old.parameters)
    (hrt : ∀ η, old.family.natOf (old.family.invNat η) = η)
    (hfo : allFinite2 old.naturalParameters = true)
    (hfp : allFinite2 prop.naturalParameters = true)
    (hlp : prop.log_norm.isFinite = true)
    (hdims : dimsMatch old.naturalParameters prop.naturalParameters) :
    (project_mean_field mf nd (.scalar 0)).lookup v = some old ∧
    ∀ m2, (project_mean_field mf nd (.scalar 1)).lookup v = some m2 →
      m2.naturalParameters = prop.naturalParameters := by
  obtain ⟨hlen, hrows⟩ := hdims
  have h0 : (project_mean_field mf nd (.scalar 0)).lookup v =
      (mf.lookup v).map (mergeVariable nd (.scalar 0) v) :=
    lookup_map_keyed (mergeVariable nd (.scalar 0)) mf v
  have h1 : (project_mean_field mf nd (.scalar 1)).lookup v =
      (mf.lookup v).map (mergeVariable nd (.scalar 1) v) :=
    lookup_map_keyed (mergeVariable nd (.scalar 1)) mf v
  have hmv0 : mergeVariable nd (.scalar 0) v old = dampedMessage old prop 0 := by
    unfold mergeVariable
    rw [hnd]
    rfl
  have hmv1 : mergeVariable nd (.scalar 1) v old = dampedMessage old prop 1 := by
    unfold mergeVariable
    rw [hnd]
    rfl
  constructor
  · rw [h0, hmf]
    show some (mergeVariable nd (.scalar 0) v old) = some old
    rw [hmv0, dampedMessage_zero old prop hrt0 hfp hlp hlen hrows]
  · intro m2 hm2
    rw [h1, hmf] at hm2
    have hm2' : mergeVariable nd (.scalar 1) v old = m2 :=
      Option.some.inj hm2
    rw [← hm2', hmv1]
    exact dampedMessage_one old prop hrt hfo hlen hrows

/-- C4 witness: the boundary deltas at a concrete one-variable mean field
with finite messages `mOld` and `mProp` over the natural-coordinate
family. -/
theorem delta_boundary_merge_witness :
    (project_mean_field [(0, mOld)] [(0, mProp)] (.scalar 0)).lookup 0 =
      some mOld ∧
    ∀ m2, (project_mean_field [(0, mOld)] [(0, mProp)] (.scalar 1)).lookup 0 =
        some m2 →
      m2.naturalParameters = mProp.naturalParameters :=
  delta_boundary_merge [(0, mOld)] [(0, mProp)] 0 mOld mProp rfl rfl rfl
    (fun _ => rfl) (by decide) (by decide) (by decide) (by decide)
